import Mathlib

/-!
Shallow embedding of the Cliring netting engine.

Sources:
* `src/internal/repository/reposotory.go`, `ListMonetarySettlements`
  (lines 339-446): the repository-version netting ("policy A": a Credit
  order with a bank posts Client→Bank and Bank→Rolf).
* `src/unnamed/part_003` (service layer), `ListMonetarySettlements`
  (lines 211-300): the service-version netting ("policy B": a Credit
  order with a bank posts Bank→Client only, and a Credit order without a
  bank posts nothing).

Go `float64` amounts are modelled as exact rationals `ℚ`; the comparison
against zero in the source is exact (`net != 0`), which `ℚ` preserves.
Go `int` is modelled as `Int`, `*int` as `Option Int`.  A Go slice
index-out-of-range panic is modelled as the `Err.indexOOB` error value,
so that in-bounds safety is a provable statement about the embedding.
Timestamps and the zero `MonetarySettlementID` are omitted: they carry no
information about the netting computation.
-/

namespace Cliring

/-- An order (obligation record) as consumed by the netting engine:
`order_type_id`, `amount`, optional `bank_id` (Go `*int`). -/
structure Order where
  orderTypeID : Int
  amount : ℚ
  bankID : Option Int
deriving DecidableEq, Repr

/-- A computed monetary settlement: `deal_id`, signed `amount`,
`status`, optional `bank_id`. -/
structure Settlement where
  dealID : Int
  amount : ℚ
  status : String
  bankID : Option Int
deriving DecidableEq, Repr

/-- Failure modes of the embedded computation.  The first three model the
`fmt.Errorf(..., ErrInvalidInput)` returns of the Go source; `indexOOB`
models a Go slice index-out-of-range panic. -/
inductive Err where
  | invalidDealID
  | invalidPagination
  | unknownOrderType (t : Int)
  | indexOOB
deriving DecidableEq, Repr

/-- The two Credit-mapping policies present in the source:
`repoA` is the repository version, `serviceB` the service version. -/
inductive Policy
  | repoA
  | serviceB
deriving DecidableEq, Repr

/-- The obligation matrix, a Go `[][]float64`. -/
abbrev Mat := List (List ℚ)

/-- `make([][]float64, n)` with each row `make([]float64, n)`. -/
def zeroMat (n : Nat) : Mat := List.replicate n (List.replicate n (0 : ℚ))

/-- Read `m[i][j]`; out of range is a panic (`indexOOB`). -/
def matGet (m : Mat) (i j : Nat) : Except Err ℚ :=
  match m[i]? with
  | none => .error .indexOOB
  | some row =>
    match row[j]? with
    | none => .error .indexOOB
    | some v => .ok v

/-- `m[i][j] += v`; out of range is a panic (`indexOOB`). -/
def matAdd (m : Mat) (i j : Nat) (v : ℚ) : Except Err Mat :=
  match m[i]? with
  | none => .error .indexOOB
  | some row =>
    match row[j]? with
    | none => .error .indexOOB
    | some cur => .ok (m.set i (row.set j (cur + v)))

/-- One iteration of the matrix-building loop: the `switch order.OrderTypeID`
of both Go versions, differing only in `case 2` (Credit). -/
def applyOrder (pol : Policy) (o : Order) (m : Mat) : Except Err Mat :=
  if o.orderTypeID = 1 then
    -- Purchase: Client owes Rolf
    matAdd m 0 1 o.amount
  else if o.orderTypeID = 2 then
    match pol with
    | .repoA =>
      -- repository version: Client owes Bank, Bank owes Rolf
      match o.bankID with
      | some _ =>
        match matAdd m 0 2 o.amount with
        | .error e => .error e
        | .ok m1 => matAdd m1 2 1 o.amount
      | none => matAdd m 0 1 o.amount -- fallback Client -> Rolf
    | .serviceB =>
      -- service version: Bank owes Client; nothing without a bank
      match o.bankID with
      | some _ => matAdd m 2 0 o.amount
      | none => .ok m
  else if o.orderTypeID = 3 then
    -- Trade-in: Rolf owes Client
    matAdd m 1 0 o.amount
  else
    .error (.unknownOrderType o.orderTypeID)

/-- The `for _, order := range orders` matrix-building loop. -/
def buildMatrix (pol : Policy) : List Order → Mat → Except Err Mat
  | [], m => .ok m
  | o :: rest, m =>
    match applyOrder pol o m with
    | .error e => .error e
    | .ok m1 => buildMatrix pol rest m1

/-- Inner loop of the net-position computation for participant `i`:
`net += obligations[i][j]; net -= obligations[j][i]` for each `j ≠ i`. -/
def netLoop (m : Mat) (i : Nat) : List Nat → ℚ → Except Err ℚ
  | [], acc => .ok acc
  | j :: rest, acc =>
    if i ≠ j then
      match matGet m i j, matGet m j i with
      | .ok a, .ok b => netLoop m i rest (acc + a - b)
      | .error e, _ => .error e
      | .ok _, .error e => .error e
    else
      netLoop m i rest acc

/-- Net position of participant `i`: `net[i] = Σ_j a_ij − Σ_j a_ji`. -/
def netOf (m : Mat) (n i : Nat) : Except Err ℚ :=
  netLoop m i (List.range n) 0

/-- Outer loop of the net-position computation, producing `netPositions`. -/
def netsLoop (m : Mat) (n : Nat) : List Nat → Except Err (List ℚ)
  | [] => .ok []
  | i :: rest =>
    match netOf m n i with
    | .error e => .error e
    | .ok v =>
      match netsLoop m n rest with
      | .error e => .error e
      | .ok vs => .ok (v :: vs)

/-- `hasBank`: whether any order carries a non-nil `bank_id`. -/
def hasBankOf (orders : List Order) : Bool := orders.any (fun o => o.bankID.isSome)

/-- The participant list: `["Client", "Rolf"]`, plus `"Bank"` iff some
order references a bank. -/
def participantsOf (orders : List Order) : List String :=
  if hasBankOf orders then ["Client", "Rolf", "Bank"] else ["Client", "Rolf"]

/-- The `bank_id` of the first order carrying one (the inner loop that
populates `settlement.BankID` for the bank participant). -/
def firstBankID : List Order → Option Int
  | [] => none
  | o :: rest =>
    match o.bankID with
    | some b => some b
    | none => firstBankID rest

/-- The settlement-emission loop: one `Settlement` per nonzero net
position, paired here with its participant name. -/
def mkSettlements (dealID : Int) (hasBank : Bool) (bref : Option Int) :
    List (String × ℚ) → List Settlement
  | [] => []
  | pn :: rest =>
    if pn.2 ≠ 0 then
      { dealID := dealID, amount := pn.2, status := "pending",
        bankID := if hasBank = true ∧ pn.1 = "Bank" then bref else none } ::
        mkSettlements dealID hasBank bref rest
    else
      mkSettlements dealID hasBank bref rest

/-- `n := len(participants)`: the participant count. -/
def nOf (orders : List Order) : Nat := (participantsOf orders).length

/-- The net positions computed for an order list: build the matrix over
the participant set, then reduce rows/columns. -/
def netsOf (pol : Policy) (orders : List Order) : Except Err (List ℚ) :=
  match buildMatrix pol orders (zeroMat (nOf orders)) with
  | .error e => .error e
  | .ok m => netsLoop m (nOf orders) (List.range (nOf orders))

/-- The netting engine proper (`computeNetSettlements` of the spec): the
shared body of both Go `ListMonetarySettlements` versions, after the
orders have been fetched and before repository-side pagination. -/
def computeNetSettlements (pol : Policy) (dealID : Int) (orders : List Order) :
    Except Err (List Settlement) :=
  match netsOf pol orders with
  | .error e => .error e
  | .ok nets =>
    .ok (mkSettlements dealID (hasBankOf orders) (firstBankID orders)
      ((participantsOf orders).zip nets))

/-- Repository `ListMonetarySettlements`: input validation, policy-A
netting, then pagination; returns the page and the total count. -/
def repoListMonetarySettlements (dealID page limit : Int) (orders : List Order) :
    Except Err (List Settlement × Nat) :=
  if dealID ≤ 0 then .error .invalidDealID
  else if page < 1 ∨ limit < 1 then .error .invalidPagination
  else
    match computeNetSettlements .repoA dealID orders with
    | .error e => .error e
    | .ok settlements =>
      let total := settlements.length
      let start := ((page - 1) * limit).toNat
      let stop := start + limit.toNat
      if start > total then .ok ([], total)
      else .ok ((settlements.take (min stop total)).drop start, total)

/-- Service `ListMonetarySettlements`: input validation then policy-B
netting (no pagination). -/
def serviceListMonetarySettlements (dealID : Int) (orders : List Order) :
    Except Err (List Settlement) :=
  if dealID ≤ 0 then .error .invalidDealID
  else computeNetSettlements .serviceB dealID orders

/-- Whether a netting result contains a settlement carrying a bank
reference (i.e. a Bank-participant settlement). -/
def hasBankSettlement (r : Except Err (List Settlement)) : Bool :=
  match r with
  | .ok L => L.any (fun s => s.bankID.isSome)
  | .error _ => false

/-- Whether a result is the modelled index-out-of-range panic. -/
def isIndexPanic {α : Type} (r : Except Err α) : Bool :=
  match r with
  | .error .indexOOB => true
  | _ => false

/-! ## Pure views of the matrix, for the proofs -/

/-- The pure value of cell `(i, j)` (defaulting to `0` outside the matrix). -/
def cell (m : Mat) (i j : Nat) : ℚ := (m.getD i []).getD j 0

/-- `m` is an `n × n` matrix. -/
def IsSquare (m : Mat) (n : Nat) : Prop :=
  m.length = n ∧ ∀ row ∈ m, row.length = n

lemma isSquare_zeroMat (n : Nat) : IsSquare (zeroMat n) n := by
  refine ⟨by simp [zeroMat], fun row hrow => ?_⟩
  rw [List.eq_of_mem_replicate hrow]
  simp

lemma cell_zeroMat (n i j : Nat) : cell (zeroMat n) i j = 0 := by
  simp only [cell, zeroMat, List.getD_eq_getElem?_getD, List.getElem?_replicate]
  split_ifs <;> simp

lemma cell_eq_getElem {m : Mat} {i j : Nat} (hi : i < m.length)
    (hj : j < (m[i]).length) : cell m i j = (m[i])[j] := by
  simp [cell, List.getD_eq_getElem?_getD, List.getElem?_eq_getElem, hi, hj]

lemma cell_of_lt {m : Mat} {i : Nat} (hi : i < m.length) (b : Nat) :
    cell m i b = (m[i]).getD b 0 := by
  simp [cell, List.getD_eq_getElem?_getD, List.getElem?_eq_getElem hi]

lemma cell_set {m : Mat} {i : Nat} (hi : i < m.length) (r : List ℚ) (a b : Nat) :
    cell (m.set i r) a b = if a = i then r.getD b 0 else cell m a b := by
  by_cases ha : a = i
  · subst ha
    simp [cell, List.getD_eq_getElem?_getD, List.getElem?_set, hi]
  · simp [cell, List.getD_eq_getElem?_getD, List.getElem?_set, Ne.symm ha, ha]

lemma getD_set_rat {l : List ℚ} {j : Nat} (hj : j < l.length) (v : ℚ) (b : Nat) :
    (l.set j v).getD b 0 = if b = j then v else l.getD b 0 := by
  by_cases hb : b = j
  · subst hb
    simp [List.getD_eq_getElem?_getD, List.getElem?_set, hj]
  · simp [List.getD_eq_getElem?_getD, List.getElem?_set, Ne.symm hb, hb]

lemma matGet_ok {m : Mat} {n i j : Nat} (hm : IsSquare m n) (hi : i < n) (hj : j < n) :
    matGet m i j = .ok (cell m i j) := by
  obtain ⟨hlen, hrows⟩ := hm
  have hi' : i < m.length := by omega
  have hj' : j < (m[i]).length := by
    rw [hrows _ (List.getElem_mem hi')]; exact hj
  unfold matGet
  rw [List.getElem?_eq_getElem hi']
  dsimp only
  rw [List.getElem?_eq_getElem hj']
  dsimp only
  rw [cell_eq_getElem hi' hj']

lemma matAdd_ok {m : Mat} {n i j : Nat} (v : ℚ) (hm : IsSquare m n)
    (hi : i < n) (hj : j < n) :
    ∃ m', matAdd m i j v = .ok m' ∧ IsSquare m' n ∧
      ∀ a b, cell m' a b = cell m a b + (if a = i ∧ b = j then v else 0) := by
  obtain ⟨hlen, hrows⟩ := hm
  have hi' : i < m.length := by omega
  have hrl : (m[i]).length = n := hrows _ (List.getElem_mem hi')
  have hj' : j < (m[i]).length := by omega
  refine ⟨m.set i ((m[i]).set j ((m[i])[j] + v)), ?_, ⟨?_, ?_⟩, ?_⟩
  · unfold matAdd
    rw [List.getElem?_eq_getElem hi']
    dsimp only
    rw [List.getElem?_eq_getElem hj']
  · simp [hlen]
  · intro row hrow
    rcases List.mem_or_eq_of_mem_set hrow with h | h
    · exact hrows _ h
    · rw [h]; simp [hrl]
  · intro a b
    rw [cell_set hi']
    by_cases ha : a = i
    · subst ha
      rw [if_pos rfl, getD_set_rat hj', cell_of_lt hi']
      by_cases hb : b = j
      · subst hb
        rw [if_pos rfl, if_pos ⟨rfl, rfl⟩]
        rw [List.getD_eq_getElem?_getD, List.getElem?_eq_getElem hj']
        rfl
      · rw [if_neg hb, if_neg (by tauto), add_zero]
    · rw [if_neg ha, if_neg (by tauto), add_zero]

/-! ## Characterizing the matrix-building loop -/

/-- The order types accepted by the `switch` of both versions. -/
def validType (o : Order) : Prop :=
  o.orderTypeID = 1 ∨ o.orderTypeID = 2 ∨ o.orderTypeID = 3

instance (o : Order) : Decidable (validType o) := by
  unfold validType; infer_instance

/-- Pure view of one order's contribution to matrix cell `(i, j)`. -/
def contrib (pol : Policy) (o : Order) (i j : Nat) : ℚ :=
  if o.orderTypeID = 1 then
    if i = 0 ∧ j = 1 then o.amount else 0
  else if o.orderTypeID = 2 then
    match pol with
    | .repoA =>
      if o.bankID.isSome then
        (if i = 0 ∧ j = 2 then o.amount else 0) +
          (if i = 2 ∧ j = 1 then o.amount else 0)
      else if i = 0 ∧ j = 1 then o.amount else 0
    | .serviceB =>
      if o.bankID.isSome then
        if i = 2 ∧ j = 0 then o.amount else 0
      else 0
  else if o.orderTypeID = 3 then
    if i = 1 ∧ j = 0 then o.amount else 0
  else 0

/-- Pure view of the accumulated matrix cell `(i, j)` over an order list. -/
def cellSum (pol : Policy) (orders : List Order) (i j : Nat) : ℚ :=
  (orders.map (fun o => contrib pol o i j)).sum

lemma applyOrder_ok (pol : Policy) {o : Order} {m : Mat} {n : Nat}
    (hm : IsSquare m n) (h2 : 2 ≤ n) (hb : o.bankID.isSome = true → n = 3)
    (hv : validType o) :
    ∃ m', applyOrder pol o m = .ok m' ∧ IsSquare m' n ∧
      ∀ a b, cell m' a b = cell m a b + contrib pol o a b := by
  have h0 : 0 < n := by omega
  have h1 : 1 < n := by omega
  rcases hv with ht | ht | ht
  · obtain ⟨m', hadd, hsq, hc⟩ := matAdd_ok (i := 0) (j := 1) o.amount hm h0 h1
    refine ⟨m', ?_, hsq, ?_⟩
    · simp [applyOrder, ht, hadd]
    · intro a b
      rw [hc a b]
      simp [contrib, ht]
  · rcases pol with _ | _
    · rcases hbid : o.bankID with _ | bid
      · obtain ⟨m', hadd, hsq, hc⟩ := matAdd_ok (i := 0) (j := 1) o.amount hm h0 h1
        refine ⟨m', ?_, hsq, ?_⟩
        · simp [applyOrder, ht, hbid, hadd]
        · intro a b
          rw [hc a b]
          simp [contrib, ht, hbid]
      · have hn3 : n = 3 := hb (by simp [hbid])
        subst hn3
        obtain ⟨m1, hadd1, hsq1, hc1⟩ :=
          matAdd_ok (m := m) (i := 0) (j := 2) o.amount hm (by omega) (by omega)
        obtain ⟨m2, hadd2, hsq2, hc2⟩ :=
          matAdd_ok (m := m1) (i := 2) (j := 1) o.amount hsq1 (by omega) (by omega)
        refine ⟨m2, ?_, hsq2, ?_⟩
        · simp [applyOrder, ht, hbid, hadd1, hadd2]
        · intro a b
          rw [hc2 a b, hc1 a b]
          have hcontrib : contrib .repoA o a b =
              (if a = 0 ∧ b = 2 then o.amount else 0) +
                (if a = 2 ∧ b = 1 then o.amount else 0) := by
            simp [contrib, ht, hbid]
          rw [hcontrib, add_assoc]
    · rcases hbid : o.bankID with _ | bid
      · refine ⟨m, ?_, hm, ?_⟩
        · simp [applyOrder, ht, hbid]
        · intro a b
          simp [contrib, ht, hbid]
      · have hn3 : n = 3 := hb (by simp [hbid])
        subst hn3
        obtain ⟨m', hadd, hsq, hc⟩ :=
          matAdd_ok (m := m) (i := 2) (j := 0) o.amount hm (by omega) (by omega)
        refine ⟨m', ?_, hsq, ?_⟩
        · simp [applyOrder, ht, hbid, hadd]
        · intro a b
          rw [hc a b]
          simp [contrib, ht, hbid]
  · obtain ⟨m', hadd, hsq, hc⟩ := matAdd_ok (i := 1) (j := 0) o.amount hm h1 h0
    refine ⟨m', ?_, hsq, ?_⟩
    · simp [applyOrder, ht, hadd]
    · intro a b
      rw [hc a b]
      simp [contrib, ht]

lemma applyOrder_err {pol : Policy} {o : Order} (m : Mat) (hv : ¬ validType o) :
    applyOrder pol o m = .error (.unknownOrderType o.orderTypeID) := by
  unfold validType at hv
  push_neg at hv
  simp [applyOrder, hv.1, hv.2.1, hv.2.2]

lemma buildMatrix_ok (pol : Policy) {n : Nat} :
    ∀ {orders : List Order} {m : Mat}, IsSquare m n → 2 ≤ n →
    (∀ o ∈ orders, o.bankID.isSome = true → n = 3) →
    (∀ o ∈ orders, validType o) →
    ∃ M, buildMatrix pol orders m = .ok M ∧ IsSquare M n ∧
      ∀ i j, cell M i j = cell m i j + cellSum pol orders i j := by
  intro orders
  induction orders with
  | nil =>
    intro m hm _ _ _
    exact ⟨m, rfl, hm, by simp [cellSum]⟩
  | cons o rest ih =>
    intro m hm h2 hb hv
    obtain ⟨m1, happly, hsq1, hc1⟩ :=
      applyOrder_ok pol hm h2 (hb o (by simp)) (hv o (by simp))
    obtain ⟨M, hbuild, hsqM, hcM⟩ :=
      ih hsq1 h2 (fun o ho => hb o (by simp [ho])) (fun o ho => hv o (by simp [ho]))
    refine ⟨M, ?_, hsqM, ?_⟩
    · simp [buildMatrix, happly, hbuild]
    · intro i j
      rw [hcM i j, hc1 i j]
      simp [cellSum]
      ring

lemma buildMatrix_err (pol : Policy) {n : Nat} :
    ∀ {orders : List Order} {m : Mat}, IsSquare m n → 2 ≤ n →
    (∀ o ∈ orders, o.bankID.isSome = true → n = 3) →
    (∃ o ∈ orders, ¬ validType o) →
    ∃ t, buildMatrix pol orders m = .error (.unknownOrderType t) ∧
      ∃ o ∈ orders, o.orderTypeID = t ∧ ¬ validType o := by
  intro orders
  induction orders with
  | nil =>
    intro m _ _ _ hex
    simp at hex
  | cons o rest ih =>
    intro m hm h2 hb hex
    by_cases hvo : validType o
    · obtain ⟨m1, happly, hsq1, _⟩ :=
        applyOrder_ok pol hm h2 (hb o (by simp)) hvo
      have hex' : ∃ o ∈ rest, ¬ validType o := by
        rcases hex with ⟨o', ho', hno'⟩
        rcases List.mem_cons.mp ho' with h | h
        · exact absurd (h ▸ hvo) hno'
        · exact ⟨o', h, hno'⟩
      obtain ⟨t, hbuild, o', ho', hto', hno'⟩ :=
        ih hsq1 h2 (fun o ho => hb o (by simp [ho])) hex'
      refine ⟨t, ?_, o', by simp [ho'], hto', hno'⟩
      simp [buildMatrix, happly, hbuild]
    · refine ⟨o.orderTypeID, ?_, o, by simp, rfl, hvo⟩
      simp [buildMatrix, applyOrder_err m hvo]

/-! ## Characterizing the net-position loops -/

/-- Pure view of participant `i`'s net position over matrix `m`. -/
def netPure (m : Mat) (n i : Nat) : ℚ :=
  ∑ j ∈ Finset.range n, (if i = j then 0 else cell m i j - cell m j i)

lemma list_range_map_sum (f : Nat → ℚ) (n : Nat) :
    ((List.range n).map f).sum = ∑ j ∈ Finset.range n, f j := by
  induction n with
  | zero => simp
  | succ k ih =>
    rw [List.range_succ, Finset.sum_range_succ, List.map_append, List.sum_append, ih]
    simp

lemma netLoop_ok {m : Mat} {n i : Nat} (hm : IsSquare m n) (hi : i < n) :
    ∀ (js : List Nat) (acc : ℚ), (∀ j ∈ js, j < n) →
    netLoop m i js acc =
      .ok (acc + (js.map (fun j => if i = j then 0 else cell m i j - cell m j i)).sum) := by
  intro js
  induction js with
  | nil =>
    intro acc _
    simp [netLoop]
  | cons j rest ih =>
    intro acc hjs
    have hj : j < n := hjs j (by simp)
    have hrest : ∀ j ∈ rest, j < n := fun j hj => hjs j (by simp [hj])
    by_cases hij : i = j
    · rw [netLoop, if_neg (by simpa using hij), ih acc hrest]
      simp [hij]
    · rw [netLoop, if_pos (by simpa using hij), matGet_ok hm hi hj, matGet_ok hm hj hi]
      dsimp only
      rw [ih (acc + cell m i j - cell m j i) hrest]
      congr 1
      simp [hij]
      ring

lemma netOf_ok {m : Mat} {n i : Nat} (hm : IsSquare m n) (hi : i < n) :
    netOf m n i = .ok (netPure m n i) := by
  rw [netOf, netLoop_ok hm hi (List.range n) 0 (by simp), zero_add, netPure,
    list_range_map_sum]

lemma netsLoop_ok {m : Mat} {n : Nat} (hm : IsSquare m n) :
    ∀ (idxs : List Nat), (∀ i ∈ idxs, i < n) →
    netsLoop m n idxs = .ok (idxs.map (fun i => netPure m n i)) := by
  intro idxs
  induction idxs with
  | nil =>
    intro _
    simp [netsLoop]
  | cons i rest ih =>
    intro his
    rw [netsLoop, netOf_ok hm (his i (by simp))]
    dsimp only
    rw [ih (fun j hj => his j (by simp [hj]))]
    rfl

lemma two_le_nOf (orders : List Order) : 2 ≤ nOf orders := by
  unfold nOf participantsOf
  split_ifs <;> simp

lemma nOf_eq_three {orders : List Order} (h : hasBankOf orders = true) :
    nOf orders = 3 := by
  unfold nOf participantsOf
  rw [h]
  rfl

lemma nOf_eq_two {orders : List Order} (h : hasBankOf orders = false) :
    nOf orders = 2 := by
  unfold nOf participantsOf
  rw [h]
  rfl

lemma bank_cond (orders : List Order) :
    ∀ o ∈ orders, o.bankID.isSome = true → nOf orders = 3 := by
  intro o ho hsome
  refine nOf_eq_three ?_
  unfold hasBankOf
  rw [List.any_eq_true]
  exact ⟨o, ho, hsome⟩

/-- Pure view of the computed net-position list. -/
def pureNets (pol : Policy) (orders : List Order) : List ℚ :=
  (List.range (nOf orders)).map (fun i =>
    ∑ j ∈ Finset.range (nOf orders),
      (if i = j then 0 else cellSum pol orders i j - cellSum pol orders j i))

lemma netsOf_ok {pol : Policy} {orders : List Order}
    (hv : ∀ o ∈ orders, validType o) :
    netsOf pol orders = .ok (pureNets pol orders) := by
  obtain ⟨M, hbuild, hsqM, hcM⟩ :=
    buildMatrix_ok pol (isSquare_zeroMat (nOf orders)) (two_le_nOf orders)
      (bank_cond orders) hv
  unfold netsOf
  rw [hbuild]
  dsimp only
  rw [netsLoop_ok hsqM (List.range (nOf orders)) (by simp)]
  unfold pureNets
  congr 1
  refine List.map_congr_left fun i _ => ?_
  unfold netPure
  refine Finset.sum_congr rfl fun j _ => ?_
  rw [hcM i j, hcM j i, cell_zeroMat, cell_zeroMat, zero_add, zero_add]

lemma netsOf_err (pol : Policy) {orders : List Order}
    (hex : ∃ o ∈ orders, ¬ validType o) :
    ∃ t, netsOf pol orders = .error (.unknownOrderType t) ∧
      ∃ o ∈ orders, o.orderTypeID = t ∧ ¬ validType o := by
  obtain ⟨t, hbuild, hw⟩ :=
    buildMatrix_err pol (isSquare_zeroMat (nOf orders)) (two_le_nOf orders)
      (bank_cond orders) hex
  refine ⟨t, ?_, hw⟩
  unfold netsOf
  rw [hbuild]

lemma netsOf_ok_inv {pol : Policy} {orders : List Order} {ns : List ℚ}
    (h : netsOf pol orders = .ok ns) :
    (∀ o ∈ orders, validType o) ∧ ns = pureNets pol orders := by
  by_cases hv : ∀ o ∈ orders, validType o
  · refine ⟨hv, ?_⟩
    rw [netsOf_ok hv] at h
    exact (Except.ok.inj h).symm
  · push_neg at hv
    obtain ⟨t, herr, _⟩ := netsOf_err pol (by simpa using hv)
    rw [herr] at h
    cases h

lemma compute_ok {pol : Policy} {dealID : Int} {orders : List Order}
    (hv : ∀ o ∈ orders, validType o) :
    computeNetSettlements pol dealID orders =
      .ok (mkSettlements dealID (hasBankOf orders) (firstBankID orders)
        ((participantsOf orders).zip (pureNets pol orders))) := by
  unfold computeNetSettlements
  rw [netsOf_ok hv]

lemma compute_ok_inv {pol : Policy} {dealID : Int} {orders : List Order}
    {L : List Settlement} (h : computeNetSettlements pol dealID orders = .ok L) :
    (∀ o ∈ orders, validType o) ∧
      L = mkSettlements dealID (hasBankOf orders) (firstBankID orders)
        ((participantsOf orders).zip (pureNets pol orders)) := by
  unfold computeNetSettlements at h
  rcases hns : netsOf pol orders with e | ns
  · rw [hns] at h
    cases h
  · rw [hns] at h
    obtain ⟨hv, hpure⟩ := netsOf_ok_inv hns
    exact ⟨hv, by rw [← Except.ok.inj h, hpure]⟩

/-! ## Properties of the settlement-emission loop -/

lemma mkSettlements_map_amount (d : Int) (hb : Bool) (br : Option Int) :
    ∀ pairs : List (String × ℚ),
    (mkSettlements d hb br pairs).map (fun s => s.amount) =
      (pairs.map (fun pn => pn.2)).filter (fun q => decide (q ≠ 0)) := by
  intro pairs
  induction pairs with
  | nil => rfl
  | cons pn rest ih =>
    by_cases h : pn.2 = 0
    · rw [mkSettlements, if_neg (by simpa using h)]
      simp [List.filter_cons, h, ih]
    · rw [mkSettlements, if_pos (by simpa using h)]
      simp [List.filter_cons, h, ih]

lemma mkSettlements_mem {d : Int} {hb : Bool} {br : Option Int} :
    ∀ {pairs : List (String × ℚ)} {s : Settlement}, s ∈ mkSettlements d hb br pairs →
    s.dealID = d ∧ s.status = "pending" ∧ (s.bankID = none ∨ s.bankID = br) := by
  intro pairs
  induction pairs with
  | nil =>
    intro s hs
    simp [mkSettlements] at hs
  | cons pn rest ih =>
    intro s hs
    rw [mkSettlements] at hs
    split_ifs at hs with h1 h2
    · rcases List.mem_cons.mp hs with h3 | h3
      · subst h3
        exact ⟨rfl, rfl, Or.inr rfl⟩
      · exact ih h3
    · rcases List.mem_cons.mp hs with h3 | h3
      · subst h3
        exact ⟨rfl, rfl, Or.inl rfl⟩
      · exact ih h3
    · exact ih hs

lemma mkSettlements_proj (d : Int) (hb : Bool) {br br' : Option Int}
    (hsome : br.isSome = br'.isSome) :
    ∀ pairs : List (String × ℚ),
    ((mkSettlements d hb br pairs).map (fun s => (s.dealID, s.amount, s.status)) =
      (mkSettlements d hb br' pairs).map (fun s => (s.dealID, s.amount, s.status))) ∧
    ((mkSettlements d hb br pairs).map (fun s => s.bankID.isSome) =
      (mkSettlements d hb br' pairs).map (fun s => s.bankID.isSome)) := by
  intro pairs
  induction pairs with
  | nil => exact ⟨rfl, rfl⟩
  | cons pn rest ih =>
    rw [mkSettlements, mkSettlements]
    split_ifs with h1 h2
    · refine ⟨?_, ?_⟩
      · simp [ih.1]
      · simp [ih.2, hsome]
    · refine ⟨?_, ?_⟩
      · simp [ih.1]
      · simp [ih.2]
    · exact ih

lemma map_snd_zip_eq {α β : Type} :
    ∀ (ps : List α) (ns : List β), ps.length = ns.length →
    (ps.zip ns).map (fun pn => pn.2) = ns := by
  intro ps
  induction ps with
  | nil =>
    intro ns h
    cases ns with
    | nil => rfl
    | cons n ns => cases h
  | cons p ps ih =>
    intro ns h
    cases ns with
    | nil => cases h
    | cons n ns =>
      rw [List.zip_cons_cons, List.map_cons, ih ns (by simpa using h)]

lemma firstBankID_spec :
    ∀ {orders : List Order} {b : Int}, firstBankID orders = some b →
    ∃ pre o suf, orders = pre ++ o :: suf ∧ (∀ p ∈ pre, p.bankID = none) ∧
      o.bankID = some b := by
  intro orders
  induction orders with
  | nil =>
    intro b h
    cases h
  | cons o rest ih =>
    intro b h
    rw [firstBankID] at h
    rcases hbid : o.bankID with _ | b'
    · rw [hbid] at h
      dsimp only at h
      obtain ⟨pre, o', suf, heq, hpre, hbid'⟩ := ih h
      refine ⟨o :: pre, o', suf, by rw [heq]; rfl, ?_, hbid'⟩
      intro p hp
      rcases List.mem_cons.mp hp with h1 | h1
      · rw [h1]; exact hbid
      · exact hpre p h1
    · rw [hbid] at h
      dsimp only at h
      refine ⟨[], o, rest, rfl, by simp, ?_⟩
      rw [hbid]
      exact h

lemma firstBankID_isSome :
    ∀ {orders : List Order}, hasBankOf orders = true →
    (firstBankID orders).isSome = true := by
  intro orders
  induction orders with
  | nil =>
    intro h
    simp [hasBankOf] at h
  | cons o rest ih =>
    intro h
    rw [firstBankID]
    rcases hbid : o.bankID with _ | b
    · dsimp only
      refine ih ?_
      simpa [hasBankOf, List.any_cons, hbid] using h
    · rfl

/-! ## Permutation and policy-comparison lemmas -/

lemma hasBankOf_perm {orders orders' : List Order} (hp : orders.Perm orders') :
    hasBankOf orders = hasBankOf orders' := by
  unfold hasBankOf
  by_cases h : ∃ o ∈ orders, o.bankID.isSome = true
  · have h' : ∃ o ∈ orders', o.bankID.isSome = true := by
      obtain ⟨o, ho, hs⟩ := h
      exact ⟨o, hp.mem_iff.mp ho, hs⟩
    rw [List.any_eq_true.mpr h, List.any_eq_true.mpr h']
  · have h' : ¬ ∃ o ∈ orders', o.bankID.isSome = true := by
      intro hc
      obtain ⟨o, ho, hs⟩ := hc
      exact h ⟨o, hp.mem_iff.mpr ho, hs⟩
    have e1 : (orders.any fun o => o.bankID.isSome) ≠ true :=
      fun hc => h (List.any_eq_true.mp hc)
    have e2 : (orders'.any fun o => o.bankID.isSome) ≠ true :=
      fun hc => h' (List.any_eq_true.mp hc)
    rw [Bool.eq_false_iff.mpr e1, Bool.eq_false_iff.mpr e2]

lemma nOf_congr {orders orders' : List Order}
    (h : hasBankOf orders = hasBankOf orders') : nOf orders = nOf orders' := by
  unfold nOf participantsOf
  rw [h]

lemma cellSum_perm {pol : Policy} {orders orders' : List Order}
    (hp : orders.Perm orders') (i j : Nat) :
    cellSum pol orders i j = cellSum pol orders' i j :=
  List.Perm.sum_eq (hp.map (fun o => contrib pol o i j))

lemma pureNets_perm {pol : Policy} {orders orders' : List Order}
    (hp : orders.Perm orders') :
    pureNets pol orders = pureNets pol orders' := by
  unfold pureNets
  rw [nOf_congr (hasBankOf_perm hp)]
  refine List.map_congr_left fun i _ => ?_
  refine Finset.sum_congr rfl fun j _ => ?_
  by_cases h : i = j
  · simp [h]
  · rw [if_neg h, if_neg h, cellSum_perm hp i j, cellSum_perm hp j i]

lemma applyOrder_policy_eq {o : Order} (h : o.orderTypeID ≠ 2) (m : Mat) :
    applyOrder .repoA o m = applyOrder .serviceB o m := by
  by_cases h1 : o.orderTypeID = 1
  · simp [applyOrder, h1]
  · by_cases h3 : o.orderTypeID = 3
    · simp [applyOrder, h1, h, h3]
    · simp [applyOrder, h1, h, h3]

lemma buildMatrix_policy_eq : ∀ {orders : List Order} (m : Mat),
    (∀ o ∈ orders, o.orderTypeID ≠ 2) →
    buildMatrix .repoA orders m = buildMatrix .serviceB orders m := by
  intro orders
  induction orders with
  | nil =>
    intro m _
    rfl
  | cons o rest ih =>
    intro m h
    rw [buildMatrix, buildMatrix, applyOrder_policy_eq (h o (by simp)) m]
    cases happly : applyOrder .serviceB o m with
    | error e => rfl
    | ok m1 => exact ih m1 (fun o ho => h o (by simp [ho]))

lemma netsOf_policy_eq {orders : List Order}
    (h : ∀ o ∈ orders, o.orderTypeID ≠ 2) :
    netsOf .repoA orders = netsOf .serviceB orders := by
  unfold netsOf
  rw [buildMatrix_policy_eq _ h]

lemma compute_policy_eq (dealID : Int) {orders : List Order}
    (h : ∀ o ∈ orders, o.orderTypeID ≠ 2) :
    computeNetSettlements .repoA dealID orders =
      computeNetSettlements .serviceB dealID orders := by
  unfold computeNetSettlements
  rw [netsOf_policy_eq h]

/-! ## Conservation of the pure net positions -/

lemma pureNets_length (pol : Policy) (orders : List Order) :
    (pureNets pol orders).length = nOf orders := by
  simp [pureNets]

lemma participantsOf_length (orders : List Order) :
    (participantsOf orders).length = nOf orders := rfl

lemma pureNets_sum (pol : Policy) (orders : List Order) :
    (pureNets pol orders).sum = 0 := by
  unfold pureNets
  rw [list_range_map_sum]
  set F := fun i j => if i = j then (0 : ℚ)
    else cellSum pol orders i j - cellSum pol orders j i with hF
  have hanti : ∀ i j, F i j + F j i = 0 := by
    intro i j
    by_cases h : i = j
    · subst h
      simp [hF]
    · rw [hF]
      dsimp only
      rw [if_neg h, if_neg (Ne.symm h)]
      ring
  have key : (∑ i ∈ Finset.range (nOf orders), ∑ j ∈ Finset.range (nOf orders), F i j) +
      (∑ i ∈ Finset.range (nOf orders), ∑ j ∈ Finset.range (nOf orders), F i j) = 0 := by
    nth_rewrite 2 [Finset.sum_comm]
    rw [← Finset.sum_add_distrib]
    refine Finset.sum_eq_zero fun i _ => ?_
    rw [← Finset.sum_add_distrib]
    exact Finset.sum_eq_zero fun j _ => hanti i j
  linarith [key]

lemma firstBankID_none :
    ∀ {orders : List Order}, hasBankOf orders = false → firstBankID orders = none := by
  intro orders
  induction orders with
  | nil =>
    intro _
    rfl
  | cons o rest ih =>
    intro h
    rw [firstBankID]
    rcases hbid : o.bankID with _ | b
    · dsimp only
      refine ih ?_
      simpa [hasBankOf, List.any_cons, hbid] using h
    · exfalso
      rw [hasBankOf, List.any_cons, hbid] at h
      simp at h

lemma isIndexPanic_error {α β : Type} (e : Err) :
    isIndexPanic (Except.error e : Except Err α) =
      isIndexPanic (Except.error e : Except Err β) := by
  cases e <;> rfl

/-! ## The claims -/

/-- C1, counterexample: for the single Credit order of amount 100 with bank
reference 7, the repository-version netting (policy A) emits NO settlement
carrying a bank reference at all — the Bank's two legs cancel to a zero net
position, so no Bank settlement is produced, contradicting the claim that
the output contains a Bank settlement whose bankID equals the reference. -/
theorem claim_C1_counterexample :
    hasBankSettlement (computeNetSettlements .repoA 1 [⟨2, 100, some 7⟩]) = false := by
  norm_num [hasBankSettlement, computeNetSettlements, netsOf, buildMatrix, applyOrder,
    matAdd, zeroMat, nOf, participantsOf, hasBankOf, netsLoop, netOf, netLoop, matGet,
    List.range_succ, mkSettlements, firstBankID]
  decide

/-- C1, amended: for a single Credit order of amount `A ≠ 0` with bank
reference `B` under policy A, the net positions are `[A, -A, 0]`
(Client owes A, Dealership is owed A, Bank's two legs cancel), and the
output consists of exactly the Client and Dealership settlements, with no
Bank settlement (hence no settlement carries reference B). -/
theorem claim_C1_amended (A : ℚ) (B dealID : Int) (hA : A ≠ 0) :
    netsOf .repoA [⟨2, A, some B⟩] = .ok [A, -A, 0] ∧
    computeNetSettlements .repoA dealID [⟨2, A, some B⟩] =
      .ok [⟨dealID, A, "pending", none⟩, ⟨dealID, -A, "pending", none⟩] := by
  have hnets : netsOf .repoA [⟨2, A, some B⟩] = .ok [A, -A, 0] := by
    norm_num [netsOf, buildMatrix, applyOrder, matAdd, zeroMat, nOf, participantsOf,
      hasBankOf, netsLoop, netOf, netLoop, matGet, List.range_succ]
  refine ⟨hnets, ?_⟩
  unfold computeNetSettlements
  rw [hnets]
  dsimp only
  norm_num [mkSettlements, participantsOf, hasBankOf, firstBankID, hA, neg_ne_zero]
  refine ⟨fun h => absurd h (by decide), fun h => absurd h (by decide)⟩

/-- C1 witness: the amended statement instantiated at A = 100, B = 7,
dealID = 1. -/
theorem claim_C1_amended_witness :
    netsOf .repoA [⟨2, 100, some 7⟩] = .ok [100, -100, 0] ∧
    computeNetSettlements .repoA 1 [⟨2, 100, some 7⟩] =
      .ok [⟨1, 100, "pending", none⟩, ⟨1, -100, "pending", none⟩] :=
  claim_C1_amended 100 7 1 (by norm_num)

/-- C2: an order with an out-of-enumeration type value makes the whole
netting computation fail with the unknown-order-type (`InvalidInput`) error
carrying an offending type value, regardless of the other orders present;
no settlement sequence is returned. -/
theorem claim_C2_unknown_type (pol : Policy) (dealID : Int) (orders : List Order)
    (hex : ∃ o ∈ orders, ¬ validType o) :
    ∃ t, computeNetSettlements pol dealID orders = .error (.unknownOrderType t) ∧
      ∃ o ∈ orders, o.orderTypeID = t ∧ ¬ validType o := by
  obtain ⟨t, herr, hw⟩ := netsOf_err pol hex
  refine ⟨t, ?_, hw⟩
  unfold computeNetSettlements
  rw [herr]

/-- C2 witness: a valid Purchase order next to an order of unknown type 9. -/
theorem claim_C2_witness :
    ∃ t, computeNetSettlements .repoA 1 [⟨1, 5, none⟩, ⟨9, 3, none⟩] =
      .error (.unknownOrderType t) ∧
      ∃ o ∈ ([⟨1, 5, none⟩, ⟨9, 3, none⟩] : List Order),
        o.orderTypeID = t ∧ ¬ validType o :=
  claim_C2_unknown_type .repoA 1 _
    ⟨⟨9, 3, none⟩, List.mem_cons_of_mem _ (List.mem_cons_self _ _), by decide⟩

/-- C3: conservation — whenever the netting succeeds, the computed net
positions sum to exactly zero, under either mapping policy. -/
theorem claim_C3_conservation (pol : Policy) (orders : List Order) (ns : List ℚ)
    (h : netsOf pol orders = .ok ns) : ns.sum = 0 := by
  obtain ⟨-, hpure⟩ := netsOf_ok_inv h
  rw [hpure]
  exact pureNets_sum pol orders

/-- C3 witness: one Purchase order of amount 5 under policy A. -/
theorem claim_C3_witness : ([(5 : ℚ), -5]).sum = 0 :=
  claim_C3_conservation .repoA [⟨1, 5, none⟩] [5, -5] (by
    norm_num [netsOf, buildMatrix, applyOrder, matAdd, zeroMat, nOf, participantsOf,
      hasBankOf, netsLoop, netOf, netLoop, matGet, List.range_succ])

/-- C4: for a single Purchase order of amount A (either policy), the net
positions are `[A, -A]` (Client owes A, Dealership is owed A) and the
output contains no Bank settlement. -/
theorem claim_C4_two_party (pol : Policy) (A : ℚ) (dealID : Int) :
    netsOf pol [⟨1, A, none⟩] = .ok [A, -A] ∧
    hasBankSettlement (computeNetSettlements pol dealID [⟨1, A, none⟩]) = false := by
  constructor
  · cases pol <;>
      norm_num [netsOf, buildMatrix, applyOrder, matAdd, zeroMat, nOf, participantsOf,
        hasBankOf, netsLoop, netOf, netLoop, matGet, List.range_succ]
  · by_cases hA : A = 0 <;>
      cases pol <;>
        norm_num [hasBankSettlement, computeNetSettlements, netsOf, buildMatrix,
          applyOrder, matAdd, zeroMat, nOf, participantsOf, hasBankOf, netsLoop,
          netOf, netLoop, matGet, List.range_succ, mkSettlements, firstBankID, hA]

/-- C5: a Purchase of amount A and a Trade-in of the same amount A cancel,
yielding an empty settlement sequence; and an empty order list also yields
the empty settlement sequence (not an error), under either policy. -/
theorem claim_C5_cancel_and_empty (pol : Policy) (dealID : Int) (A : ℚ) :
    netsOf pol [⟨1, A, none⟩, ⟨3, A, none⟩] = .ok [0, 0] ∧
    computeNetSettlements pol dealID [⟨1, A, none⟩, ⟨3, A, none⟩] = .ok [] ∧
    computeNetSettlements pol dealID [] = .ok [] := by
  refine ⟨?_, ?_, ?_⟩
  · cases pol <;>
      norm_num [netsOf, buildMatrix, applyOrder, matAdd, zeroMat, nOf, participantsOf,
        hasBankOf, netsLoop, netOf, netLoop, matGet, List.range_succ]
  · cases pol <;>
      norm_num [computeNetSettlements, netsOf, buildMatrix, applyOrder, matAdd, zeroMat,
        nOf, participantsOf, hasBankOf, netsLoop, netOf, netLoop, matGet,
        List.range_succ, mkSettlements, firstBankID]
  · cases pol <;>
      norm_num [computeNetSettlements, netsOf, buildMatrix, applyOrder, matAdd, zeroMat,
        nOf, participantsOf, hasBankOf, netsLoop, netOf, netLoop, matGet,
        List.range_succ, mkSettlements, firstBankID]

/-- C6: on success the output has exactly one settlement per participant
with nonzero net position (exact comparison to zero), in participant-list
order — the settlement amounts are precisely the nonzero net positions in
order — and every settlement carries the input dealID and status
"pending". -/
theorem claim_C6_output_contract (pol : Policy) (dealID : Int) (orders : List Order)
    (L : List Settlement) (ns : List ℚ)
    (hL : computeNetSettlements pol dealID orders = .ok L)
    (hns : netsOf pol orders = .ok ns) :
    L.map (fun s => s.amount) = ns.filter (fun q => decide (q ≠ 0)) ∧
    ∀ s ∈ L, s.dealID = dealID ∧ s.status = "pending" := by
  obtain ⟨-, hLeq⟩ := compute_ok_inv hL
  obtain ⟨-, hnseq⟩ := netsOf_ok_inv hns
  subst hLeq hnseq
  constructor
  · rw [mkSettlements_map_amount, map_snd_zip_eq _ _
      ((participantsOf_length orders).trans (pureNets_length pol orders).symm)]
  · intro s hs
    obtain ⟨h1, h2, -⟩ := mkSettlements_mem hs
    exact ⟨h1, h2⟩

/-- C6 witness: one Purchase order of amount 5 under policy A. -/
theorem claim_C6_witness :
    ([⟨1, 5, "pending", none⟩, ⟨1, -5, "pending", none⟩] : List Settlement).map
        (fun s => s.amount) =
      ([5, -5] : List ℚ).filter (fun q => decide (q ≠ 0)) ∧
    ∀ s ∈ ([⟨1, 5, "pending", none⟩, ⟨1, -5, "pending", none⟩] : List Settlement),
      s.dealID = 1 ∧ s.status = "pending" :=
  claim_C6_output_contract .repoA 1 [⟨1, 5, none⟩] _ _
    (by
      norm_num [computeNetSettlements, netsOf, buildMatrix, applyOrder, matAdd, zeroMat,
        nOf, participantsOf, hasBankOf, netsLoop, netOf, netLoop, matGet,
        List.range_succ, mkSettlements, firstBankID])
    (by
      norm_num [netsOf, buildMatrix, applyOrder, matAdd, zeroMat, nOf, participantsOf,
        hasBankOf, netsLoop, netOf, netLoop, matGet, List.range_succ])

/-- C7: any emitted settlement that carries a bank reference carries the
bankID of the FIRST order in the input sequence with a non-null bankID:
the order list decomposes as `pre ++ o :: suf` with every order in `pre`
bank-free and the settlement's bankID equal to `o`'s. -/
theorem claim_C7_first_bank_reference (pol : Policy) (dealID : Int)
    (orders : List Order) (L : List Settlement) (s : Settlement)
    (hL : computeNetSettlements pol dealID orders = .ok L)
    (hs : s ∈ L) (hsome : s.bankID.isSome = true) :
    ∃ pre o suf, orders = pre ++ o :: suf ∧ (∀ p ∈ pre, p.bankID = none) ∧
      s.bankID = o.bankID := by
  obtain ⟨-, hLeq⟩ := compute_ok_inv hL
  subst hLeq
  obtain ⟨-, -, hbr⟩ := mkSettlements_mem hs
  rcases hbr with h | h
  · rw [h] at hsome
    cases hsome
  · rcases hfb : firstBankID orders with _ | b
    · rw [h, hfb] at hsome
      cases hsome
    · obtain ⟨pre, o, suf, heq, hpre, hbid⟩ := firstBankID_spec hfb
      exact ⟨pre, o, suf, heq, hpre, by rw [h, hfb, hbid]⟩

/-- C7 witness: a single Credit order with bank reference 42 under
policy B, whose Bank settlement carries reference 42. -/
theorem claim_C7_witness :
    ∃ pre o suf, ([⟨2, 7, some 42⟩] : List Order) = pre ++ o :: suf ∧
      (∀ p ∈ pre, p.bankID = none) ∧
      (⟨1, 7, "pending", some 42⟩ : Settlement).bankID = o.bankID :=
  claim_C7_first_bank_reference .serviceB 1 [⟨2, 7, some 42⟩]
    [⟨1, -7, "pending", none⟩, ⟨1, 7, "pending", some 42⟩]
    ⟨1, 7, "pending", some 42⟩
    (by
      norm_num [computeNetSettlements, netsOf, buildMatrix, applyOrder, matAdd, zeroMat,
        nOf, participantsOf, hasBankOf, netsLoop, netOf, netLoop, matGet,
        List.range_succ, mkSettlements, firstBankID]
      decide)
    (by simp)
    rfl

/-- C8: permuting the input orders leaves the computed net positions
unchanged, hence the emitted settlements have the same dealIDs, amounts
and statuses and the same participants (Bank settlements in the same
positions); only the attached bank reference value may differ. -/
theorem claim_C8_permutation (pol : Policy) (dealID : Int)
    (orders orders' : List Order) (hp : orders.Perm orders')
    (ns ns' : List ℚ) (L L' : List Settlement)
    (h1 : netsOf pol orders = .ok ns) (h2 : netsOf pol orders' = .ok ns')
    (h3 : computeNetSettlements pol dealID orders = .ok L)
    (h4 : computeNetSettlements pol dealID orders' = .ok L') :
    ns = ns' ∧
    L.map (fun s => (s.dealID, s.amount, s.status)) =
      L'.map (fun s => (s.dealID, s.amount, s.status)) ∧
    L.map (fun s => s.bankID.isSome) = L'.map (fun s => s.bankID.isSome) := by
  obtain ⟨-, hns⟩ := netsOf_ok_inv h1
  obtain ⟨-, hns'⟩ := netsOf_ok_inv h2
  obtain ⟨-, hL⟩ := compute_ok_inv h3
  obtain ⟨-, hL'⟩ := compute_ok_inv h4
  have hpn : pureNets pol orders = pureNets pol orders' := pureNets_perm hp
  have hbank : hasBankOf orders = hasBankOf orders' := hasBankOf_perm hp
  have hparts : participantsOf orders = participantsOf orders' := by
    unfold participantsOf
    rw [hbank]
  have hsome : (firstBankID orders).isSome = (firstBankID orders').isSome := by
    rcases hb : hasBankOf orders with _ | _
    · rw [firstBankID_none hb, firstBankID_none (hbank ▸ hb)]
    · rw [firstBankID_isSome hb, firstBankID_isSome (hbank ▸ hb)]
  refine ⟨by rw [hns, hns', hpn], ?_, ?_⟩
  · rw [hL, hL', ← hbank, ← hparts, ← hpn]
    exact (mkSettlements_proj dealID (hasBankOf orders) hsome _).1
  · rw [hL, hL', ← hbank, ← hparts, ← hpn]
    exact (mkSettlements_proj dealID (hasBankOf orders) hsome _).2

/-- C8 witness: swapping a Purchase and a Trade-in order. -/
theorem claim_C8_witness :
    ([(5 : ℚ), -5] : List ℚ) = [5, -5] ∧
    ([⟨1, 5, "pending", none⟩, ⟨1, -5, "pending", none⟩] : List Settlement).map
        (fun s => (s.dealID, s.amount, s.status)) =
      ([⟨1, 5, "pending", none⟩, ⟨1, -5, "pending", none⟩] : List Settlement).map
        (fun s => (s.dealID, s.amount, s.status)) ∧
    ([⟨1, 5, "pending", none⟩, ⟨1, -5, "pending", none⟩] : List Settlement).map
        (fun s => s.bankID.isSome) =
      ([⟨1, 5, "pending", none⟩, ⟨1, -5, "pending", none⟩] : List Settlement).map
        (fun s => s.bankID.isSome) :=
  claim_C8_permutation .repoA 1 [⟨1, 10, none⟩, ⟨3, 5, none⟩] [⟨3, 5, none⟩, ⟨1, 10, none⟩]
    (List.Perm.swap _ _ _) [5, -5] [5, -5]
    [⟨1, 5, "pending", none⟩, ⟨1, -5, "pending", none⟩]
    [⟨1, 5, "pending", none⟩, ⟨1, -5, "pending", none⟩]
    (by
      norm_num [netsOf, buildMatrix, applyOrder, matAdd, zeroMat, nOf, participantsOf,
        hasBankOf, netsLoop, netOf, netLoop, matGet, List.range_succ])
    (by
      norm_num [netsOf, buildMatrix, applyOrder, matAdd, zeroMat, nOf, participantsOf,
        hasBankOf, netsLoop, netOf, netLoop, matGet, List.range_succ])
    (by
      norm_num [computeNetSettlements, netsOf, buildMatrix, applyOrder, matAdd, zeroMat,
        nOf, participantsOf, hasBankOf, netsLoop, netOf, netLoop, matGet,
        List.range_succ, mkSettlements, firstBankID])
    (by
      norm_num [computeNetSettlements, netsOf, buildMatrix, applyOrder, matAdd, zeroMat,
        nOf, participantsOf, hasBankOf, netsLoop, netOf, netLoop, matGet,
        List.range_succ, mkSettlements, firstBankID])

/-- C9: on order lists with no Credit order, policy A and policy B compute
the same settlements, and the repository version with page 1 and a limit
of at least the result count returns exactly the service version's list
(with its length as the total). -/
theorem claim_C9_no_credit_equivalence (dealID limit : Int) (orders : List Order)
    (L : List Settlement)
    (hnc : ∀ o ∈ orders, o.orderTypeID ≠ 2)
    (hserv : serviceListMonetarySettlements dealID orders = .ok L)
    (hlimit : 1 ≤ limit) (hlen : (L.length : Int) ≤ limit) :
    computeNetSettlements .repoA dealID orders =
      computeNetSettlements .serviceB dealID orders ∧
    repoListMonetarySettlements dealID 1 limit orders = .ok (L, L.length) := by
  have hdeal : ¬ dealID ≤ 0 := by
    intro hc
    unfold serviceListMonetarySettlements at hserv
    rw [if_pos hc] at hserv
    cases hserv
  have hcompB : computeNetSettlements .serviceB dealID orders = .ok L := by
    unfold serviceListMonetarySettlements at hserv
    rwa [if_neg hdeal] at hserv
  have hpol := compute_policy_eq dealID hnc
  refine ⟨hpol, ?_⟩
  unfold repoListMonetarySettlements
  rw [if_neg hdeal, if_neg (by omega), hpol, hcompB]
  dsimp only
  have hle : L.length ≤ limit.toNat := by omega
  rw [if_neg (by omega)]
  have hmin : min (((1 - 1) * limit).toNat + limit.toNat) L.length = L.length := by
    omega
  rw [hmin, List.take_length]
  have hdrop : ((1 - 1) * limit).toNat = 0 := by omega
  rw [hdrop, List.drop_zero]

/-- C9 witness: one Purchase order, dealID 1, limit 10. -/
theorem claim_C9_witness :
    computeNetSettlements .repoA 1 [⟨1, 5, none⟩] =
      computeNetSettlements .serviceB 1 [⟨1, 5, none⟩] ∧
    repoListMonetarySettlements 1 1 10 [⟨1, 5, none⟩] =
      .ok ([⟨1, 5, "pending", none⟩, ⟨1, -5, "pending", none⟩], 2) := by
  have h := claim_C9_no_credit_equivalence 1 10 [⟨1, 5, none⟩]
    [⟨1, 5, "pending", none⟩, ⟨1, -5, "pending", none⟩]
    (by decide)
    (by
      norm_num [serviceListMonetarySettlements, computeNetSettlements, netsOf,
        buildMatrix, applyOrder, matAdd, zeroMat, nOf, participantsOf, hasBankOf,
        netsLoop, netOf, netLoop, matGet, List.range_succ, mkSettlements, firstBankID])
    (by norm_num) (by norm_num)
  exact ⟨h.1, h.2⟩

/-- C10: the computation is total in the matrix indices — no run of the
netting, the repository version or the service version ever evaluates to
the modelled index-out-of-range panic: writes at index 2 happen only for
orders carrying a bank reference, which force the participant count to 3. -/
theorem claim_C10_in_bounds (pol : Policy) (dealID page limit : Int)
    (orders : List Order) :
    isIndexPanic (computeNetSettlements pol dealID orders) = false ∧
    isIndexPanic (repoListMonetarySettlements dealID page limit orders) = false ∧
    isIndexPanic (serviceListMonetarySettlements dealID orders) = false := by
  have hcore : ∀ p : Policy, isIndexPanic (computeNetSettlements p dealID orders) = false := by
    intro p
    by_cases hv : ∀ o ∈ orders, validType o
    · rw [compute_ok hv]
      rfl
    · push_neg at hv
      obtain ⟨t, herr, -⟩ := netsOf_err p (by simpa using hv)
      unfold computeNetSettlements
      rw [herr]
      rfl
  refine ⟨hcore pol, ?_, ?_⟩
  · unfold repoListMonetarySettlements
    split_ifs with hd hpg
    · rfl
    · rfl
    · rcases hc : computeNetSettlements .repoA dealID orders with e | S
      · have hn := hcore .repoA
        rw [hc] at hn
        dsimp only
        exact (isIndexPanic_error e).trans hn
      · dsimp only
        split_ifs <;> rfl
  · unfold serviceListMonetarySettlements
    split_ifs with hd
    · rfl
    · exact hcore .serviceB

end Cliring
